import Mathlib

/-!
# SwiftMocks generator templates

A shallow embedding of the preprocessor templates under `Scripts/generators`:

* `Demangler.swiftproto.h`      : `Kind`, `isContext`, `decodeValueWitnessKind`,
  `createStandardSubstitution`, and the Remangler `case` fragments;
* `getStandardTypeSubst.swiftproto.h` : `getStandardTypeSubst`;
* `vw.h`, `vw.swiftproto.h`     : `RequiredValueWitnesses`, `AllValueWitnesses`.

Every template is an X-macro: it defines a per-entry macro and then includes a
`.def` table.  The tables (`DemangleNodes.def`, `ValueWitnessMangling.def`,
`StandardTypesMangling.def`, `ValueWitness.def`) are not part of the templates, so
each embedded function takes its table as an argument, one list element per table
line, and is defined by recursion on that list exactly as the expansion lays the
per-entry text out one line after the other.

Strings are compared with `==` in the templates; here that is equality of the
sequences of Unicode scalars, which is what Swift computes on ASCII text.
-/

namespace SwiftMocks

/-! ## Tables taken as arguments -/

/-- One line of `DemangleNodes.def`: either `NODE(ID)` or `CONTEXT_NODE(ID)`. -/
inductive NodeDef where
  | NODE (ID : String)
  | CONTEXT_NODE (ID : String)
  deriving DecidableEq, Repr

/-- The identifier a line of `DemangleNodes.def` carries. -/
def NodeDef.ID : NodeDef → String
  | .NODE ID => ID
  | .CONTEXT_NODE ID => ID

/-- One line `VALUE_WITNESS(MANGLING, NAME)` of `ValueWitnessMangling.def`. -/
structure ValueWitnessMangling where
  MANGLING : String
  NAME : String
  deriving DecidableEq, Repr

/-- One line `STANDARD_TYPE(KIND, MANGLING, TYPENAME)` of `StandardTypesMangling.def`. -/
structure StandardType where
  KIND : String
  MANGLING : String
  TYPENAME : String
  deriving DecidableEq, Repr

/-! ## Node model -/

/-- A case of `enum Kind`, named by its identifier (`.Type` is `"Type"`). -/
abbrev Kind := String

/-- The cases of `enum Kind: UInt16`, generated by `#define NODE(ID) case ID`, in table order.
A `CONTEXT_NODE(ID)` line contributes `case ID` as well, the table falling back to
`NODE` for it. -/
def kindCases (defs : List NodeDef) : List Kind :=
  defs.map NodeDef.ID

/-- Modelled from the spec: the payload of a `Node`, one of text string, small
integer, or none.  The declaration of `Node` is not among the templates. -/
inductive Payload where
  | None
  | Text (text : String)
  | Index (index : Nat)
  deriving DecidableEq, Repr

/-- Modelled from the spec: a `Node` is a kind, an ordered sequence of owned child
nodes and an optional payload.  The declaration of `Node` is not among the
templates; only its initialisers are used there. -/
inductive Node where
  | mk (kind : Kind) (children : List Node) (payload : Payload)
  deriving Repr

/-- Initialiser `Node(kind:, payload:)`. -/
def Node.withPayload (kind : Kind) (payload : Payload) : Node :=
  .mk kind [] payload

/-- Initialiser `Node(kind:, children:)`. -/
def Node.withChildren (kind : Kind) (children : List Node) : Node :=
  .mk kind children .None

/-- Initialiser `Node(kind:, child:)`. -/
def Node.withChild (kind : Kind) (child : Node) : Node :=
  .mk kind [child] .None

/-- The value thrown by `throw failure`. -/
inductive DemangleError where
  | failure
  deriving DecidableEq, Repr

/-! ## `Demangler.swiftproto.h` -/

/-- Transcription of `isContext(kind:)`: with `NODE(ID)` expanding to nothing and
`CONTEXT_NODE(ID)` to `kind == .ID ||`, the body is the chain of disjunctions closed
by `false`. -/
def isContext (defs : List NodeDef) (kind : Kind) : Bool :=
  match defs with
  | [] => false
  | .NODE _ :: rest => isContext rest kind
  | .CONTEXT_NODE ID :: rest => kind == ID || isContext rest kind

/-- Transcription of `decodeValueWitnessKind(code:)`: one
`if code == #MANGLING` returning `ValueWitnessKind.NAME.rawValue` per table line, then
`throw failure`.  `rawValue` is the raw value of the case of `ValueWitnessKind` with
the given name; that enumeration is declared outside the templates. -/
def decodeValueWitnessKind (rawValue : String → Int) (defs : List ValueWitnessMangling)
    (code : String) : Except DemangleError Int :=
  match defs with
  | [] => .error .failure
  | d :: rest =>
    if code == d.MANGLING then .ok (rawValue d.NAME)
    else decodeValueWitnessKind rawValue rest code

/-- The scalar `#MANGLING.unicodeScalars.first` of a table line, absent for an empty
`MANGLING`. -/
def StandardType.code (d : StandardType) : Option Char :=
  d.MANGLING.data.head?

/-- Transcription of `createStandardSubstitution`: one
`if Subst == #MANGLING.unicodeScalars.first` returning `Node(kind: .Type, child: ...)`
per table line, then `throw failure`.  `stdlibName` is the constant of that name; the
parameter, declared `char subst`, is the `Subst` the body reads. -/
def createStandardSubstitution (stdlibName : String) (defs : List StandardType)
    (Subst : Char) : Except DemangleError Node :=
  match defs with
  | [] => .error .failure
  | d :: rest =>
    if some Subst == d.code then
      .ok (Node.withChild "Type"
        (Node.withChildren d.KIND
          [Node.withPayload "Module" (.Text stdlibName),
           Node.withPayload "Identifier" (.Text d.TYPENAME)]))
    else createStandardSubstitution stdlibName rest Subst

/-- Transcription of the Remangler fragment `case .NAME: Code = #MANGLING`: the cases
of a `switch` over the value-witness kind, tried in table order; `Code` is assigned by
the first case whose pattern is the kind and stays unassigned when there is none. -/
def remangleValueWitnessCode (defs : List ValueWitnessMangling) (kind : String) :
    Option String :=
  match defs with
  | [] => none
  | d :: rest => if kind == d.NAME then some d.MANGLING else remangleValueWitnessCode rest kind

/-! ## `getStandardTypeSubst.swiftproto.h` -/

/-- How a call of a function ends: it returns a value, or it stops the program in
`fatalError` with a message. -/
inductive Outcome (α : Type) where
  | returned (value : α)
  | fatalError (message : String)
  deriving DecidableEq, Repr

/-- Transcription of `getStandardTypeSubst(typeName:) -> UnicodeScalar?`: one
`if (typeName == #TYPENAME)` returning the literal `#MANGLING` per table line, then
`fatalError("Unknown typename")`.  The returned optional is given by the text of the
literal, which Swift reads as the scalar it spells. -/
def getStandardTypeSubst (defs : List StandardType) (typeName : String) :
    Outcome (Option String) :=
  match defs with
  | [] => .fatalError "Unknown typename"
  | d :: rest =>
    if typeName == d.TYPENAME then .returned (some d.MANGLING)
    else getStandardTypeSubst rest typeName

/-- Text of the `Identifier` child of the node under a `Type` node, when the node
has that shape: the type name a standard substitution stands for. -/
def standardTypeName : Node → Option String
  | .mk _ [.mk _ [_, .mk _ _ (.Text name)] _] _ => some name
  | _ => none

/-! ## `vw.h` and `vw.swiftproto.h` -/

/-- Modelled from the spec: the signature of a witness slot, a data field of some
type or a function pointer with a return type and parameter types. -/
inductive WitnessSignature where
  | data (type : String)
  | function (returnType : String) (paramTypes : String)
  deriving DecidableEq, Repr

/-- Modelled from the spec: one slot of the value-witness catalogue
`ValueWitness.def`, with its lower-case and upper-case identifiers, its signature
and its required flag. -/
structure ValueWitness where
  lowerId : String
  upperId : String
  signature : WitnessSignature
  required : Bool
  deriving DecidableEq, Repr

/-- The selector a template defines before it includes `ValueWitness.def`. -/
inductive Want where
  | WANT_ALL_VALUE_WITNESSES
  | WANT_ONLY_REQUIRED_VALUE_WITNESSES
  deriving DecidableEq, Repr

/-- Modelled from the spec: the slots `ValueWitness.def` expands the per-slot macro
for, in catalogue order: only the required-flagged slots under
`WANT_ONLY_REQUIRED_VALUE_WITNESSES`, every slot under `WANT_ALL_VALUE_WITNESSES`.
The file `ValueWitness.def` is not among the templates; each inclusion is taken to see
the selector and the per-slot macros defined just before it, the table undefining
them at its end. -/
def includeValueWitnessDef (want : Want) (catalogue : List ValueWitness) :
    List ValueWitness :=
  match want with
  | .WANT_ALL_VALUE_WITNESSES => catalogue
  | .WANT_ONLY_REQUIRED_VALUE_WITNESSES => catalogue.filter (fun w => w.required)

/-- A member of a generated `struct`: its type and its name. -/
structure Field where
  type : String
  name : String
  deriving DecidableEq, Repr

namespace VwH

/-- The macro `VALUE_WITNESS(LOWER_ID, UPPER_ID)` of `vw.h`, which expands to the
member `ValueWitness##UPPER_ID LOWER_ID;`. -/
def VALUE_WITNESS (LOWER_ID UPPER_ID : String) : Field :=
  { type := "ValueWitness" ++ UPPER_ID, name := LOWER_ID }

/-- Members of `struct RequiredValueWitnesses` in `vw.h`. -/
def RequiredValueWitnesses (catalogue : List ValueWitness) : List Field :=
  (includeValueWitnessDef .WANT_ONLY_REQUIRED_VALUE_WITNESSES catalogue).map
    (fun w => VALUE_WITNESS w.lowerId w.upperId)

/-- Members of `struct AllValueWitnesses` in `vw.h`. -/
def AllValueWitnesses (catalogue : List ValueWitness) : List Field :=
  (includeValueWitnessDef .WANT_ALL_VALUE_WITNESSES catalogue).map
    (fun w => VALUE_WITNESS w.lowerId w.upperId)

end VwH

namespace VwSwift

/-- The macro `FUNCTION_VALUE_WITNESS` of the two structs of `vw.swiftproto.h`, which
expands to `let lowerId: Pointer<ValueWitness##upperId>`. -/
def FUNCTION_VALUE_WITNESS (lowerId upperId _returnType _paramTypes : String) : Field :=
  { type := "Pointer<ValueWitness" ++ upperId ++ ">", name := lowerId }

/-- The macro `DATA_VALUE_WITNESS` of the two structs of `vw.swiftproto.h`, which
expands to `let LOWER_ID: ValueWitness##UPPER_ID`. -/
def DATA_VALUE_WITNESS (LOWER_ID UPPER_ID _TYPE : String) : Field :=
  { type := "ValueWitness" ++ UPPER_ID, name := LOWER_ID }

/-- The member one slot expands to, by the macro of its signature. -/
def member (w : ValueWitness) : Field :=
  match w.signature with
  | .function returnType paramTypes =>
    FUNCTION_VALUE_WITNESS w.lowerId w.upperId returnType paramTypes
  | .data type => DATA_VALUE_WITNESS w.lowerId w.upperId type

/-- Members of `struct RequiredValueWitnesses` in `vw.swiftproto.h`. -/
def RequiredValueWitnesses (catalogue : List ValueWitness) : List Field :=
  (includeValueWitnessDef .WANT_ONLY_REQUIRED_VALUE_WITNESSES catalogue).map member

/-- Members of `struct AllValueWitnesses` in `vw.swiftproto.h`. -/
def AllValueWitnesses (catalogue : List ValueWitness) : List Field :=
  (includeValueWitnessDef .WANT_ALL_VALUE_WITNESSES catalogue).map member

end VwSwift

/-! ## Lemmas on the expansions -/

theorem isContext_eq_true_iff (defs : List NodeDef) (kind : Kind) :
    isContext defs kind = true ↔ NodeDef.CONTEXT_NODE kind ∈ defs := by
  induction defs with
  | nil => simp [isContext]
  | cons d rest ih =>
    cases d with
    | NODE ID => simp [isContext, ih]
    | CONTEXT_NODE ID => simp [isContext, ih]

theorem createStandardSubstitution_skip (stdlibName : String)
    (earlier rest : List StandardType) (c : Char)
    (hskip : ∀ d ∈ earlier, d.code ≠ some c) :
    createStandardSubstitution stdlibName (earlier ++ rest) c =
      createStandardSubstitution stdlibName rest c := by
  induction earlier with
  | nil => rfl
  | cons d ds ih =>
    have hd : ¬ (some c = d.code) := fun h => hskip d (List.mem_cons_self d ds) h.symm
    have hds : ∀ x ∈ ds, x.code ≠ some c := fun x hx => hskip x (List.mem_cons_of_mem d hx)
    simp [createStandardSubstitution, hd, ih hds]

theorem createStandardSubstitution_first (stdlibName : String)
    (earlier later : List StandardType) (e : StandardType) (c : Char)
    (hc : e.code = some c) (hskip : ∀ d ∈ earlier, d.code ≠ some c) :
    createStandardSubstitution stdlibName (earlier ++ e :: later) c =
      .ok (Node.mk "Type"
        [Node.mk e.KIND
          [Node.mk "Module" [] (.Text stdlibName),
           Node.mk "Identifier" [] (.Text e.TYPENAME)] .None] .None) := by
  rw [createStandardSubstitution_skip stdlibName earlier (e :: later) c hskip]
  simp [createStandardSubstitution, hc, Node.withChild, Node.withChildren, Node.withPayload]

theorem createStandardSubstitution_error_iff (stdlibName : String)
    (defs : List StandardType) (c : Char) :
    createStandardSubstitution stdlibName defs c = .error .failure ↔
      ∀ d ∈ defs, d.code ≠ some c := by
  induction defs with
  | nil => simp [createStandardSubstitution]
  | cons d ds ih =>
    by_cases h : some c = d.code
    · simp [createStandardSubstitution, h]
    · have h2 : ¬ (d.code = some c) := fun h3 => h h3.symm
      simp [createStandardSubstitution, h, h2, ih]

theorem getStandardTypeSubst_skip (earlier rest : List StandardType) (typeName : String)
    (hskip : ∀ d ∈ earlier, d.TYPENAME ≠ typeName) :
    getStandardTypeSubst (earlier ++ rest) typeName = getStandardTypeSubst rest typeName := by
  induction earlier with
  | nil => rfl
  | cons d ds ih =>
    have hd : ¬ (typeName = d.TYPENAME) := fun h => hskip d (List.mem_cons_self d ds) h.symm
    have hds : ∀ x ∈ ds, x.TYPENAME ≠ typeName :=
      fun x hx => hskip x (List.mem_cons_of_mem d hx)
    simp [getStandardTypeSubst, hd, ih hds]

theorem getStandardTypeSubst_first (earlier later : List StandardType) (e : StandardType)
    (hskip : ∀ d ∈ earlier, d.TYPENAME ≠ e.TYPENAME) :
    getStandardTypeSubst (earlier ++ e :: later) e.TYPENAME = .returned (some e.MANGLING) := by
  rw [getStandardTypeSubst_skip earlier (e :: later) e.TYPENAME hskip]
  simp [getStandardTypeSubst]

theorem getStandardTypeSubst_returned (defs : List StandardType) (typeName : String)
    (v : Option String) (h : getStandardTypeSubst defs typeName = .returned v) :
    ∃ d ∈ defs, d.TYPENAME = typeName ∧ v = some d.MANGLING := by
  induction defs with
  | nil => simp [getStandardTypeSubst] at h
  | cons d ds ih =>
    by_cases hd : typeName = d.TYPENAME
    · simp [getStandardTypeSubst, hd] at h
      exact ⟨d, List.mem_cons_self d ds, hd.symm, h.symm⟩
    · simp [getStandardTypeSubst, hd] at h
      obtain ⟨x, hx, hxn, hxv⟩ := ih h
      exact ⟨x, List.mem_cons_of_mem d hx, hxn, hxv⟩

theorem decodeValueWitnessKind_skip (rawValue : String → Int)
    (earlier rest : List ValueWitnessMangling) (code : String)
    (hskip : ∀ d ∈ earlier, d.MANGLING ≠ code) :
    decodeValueWitnessKind rawValue (earlier ++ rest) code =
      decodeValueWitnessKind rawValue rest code := by
  induction earlier with
  | nil => rfl
  | cons d ds ih =>
    have hd : ¬ (code = d.MANGLING) := fun h => hskip d (List.mem_cons_self d ds) h.symm
    have hds : ∀ x ∈ ds, x.MANGLING ≠ code :=
      fun x hx => hskip x (List.mem_cons_of_mem d hx)
    simp [decodeValueWitnessKind, hd, ih hds]

theorem remangleValueWitnessCode_skip (earlier rest : List ValueWitnessMangling)
    (kind : String) (hskip : ∀ d ∈ earlier, d.NAME ≠ kind) :
    remangleValueWitnessCode (earlier ++ rest) kind = remangleValueWitnessCode rest kind := by
  induction earlier with
  | nil => rfl
  | cons d ds ih =>
    have hd : ¬ (kind = d.NAME) := fun h => hskip d (List.mem_cons_self d ds) h.symm
    have hds : ∀ x ∈ ds, x.NAME ≠ kind := fun x hx => hskip x (List.mem_cons_of_mem d hx)
    simp [remangleValueWitnessCode, hd, ih hds]

theorem includeValueWitnessDef_required_sublist (catalogue : List ValueWitness) :
    (includeValueWitnessDef .WANT_ONLY_REQUIRED_VALUE_WITNESSES catalogue).Sublist
      (includeValueWitnessDef .WANT_ALL_VALUE_WITNESSES catalogue) := by
  simp [includeValueWitnessDef]

/-! ## Claims -/

/-- C1: for every kind `k`, `isContext(kind: k)` is true exactly when the node table
lists `CONTEXT_NODE(k)`; in particular it is false for every kind of the enumeration
that the table lists only as a plain `NODE(k)`. -/
theorem isContext_iff_context_node (defs : List NodeDef) (k : Kind) :
    (k ∈ kindCases defs → (isContext defs k = true ↔ NodeDef.CONTEXT_NODE k ∈ defs)) ∧
    (NodeDef.NODE k ∈ defs → NodeDef.CONTEXT_NODE k ∉ defs → isContext defs k = false) := by
  refine ⟨fun _ => isContext_eq_true_iff defs k, fun _ hnot => ?_⟩
  cases h : isContext defs k with
  | false => rfl
  | true => exact absurd ((isContext_eq_true_iff defs k).1 h) hnot

/-- C1 at a concrete table: `Module` is a context kind, `Identifier` is not. -/
theorem isContext_iff_context_node_witness :
    ("Module" ∈ kindCases [.NODE "Identifier", .CONTEXT_NODE "Module", .NODE "Type"] →
      (isContext [.NODE "Identifier", .CONTEXT_NODE "Module", .NODE "Type"] "Module" = true ↔
        NodeDef.CONTEXT_NODE "Module"
          ∈ [NodeDef.NODE "Identifier", .CONTEXT_NODE "Module", .NODE "Type"])) ∧
    (NodeDef.NODE "Module" ∈ [NodeDef.NODE "Identifier", .CONTEXT_NODE "Module", .NODE "Type"] →
      NodeDef.CONTEXT_NODE "Module"
          ∉ [NodeDef.NODE "Identifier", .CONTEXT_NODE "Module", .NODE "Type"] →
      isContext [.NODE "Identifier", .CONTEXT_NODE "Module", .NODE "Type"] "Module" = false) :=
  isContext_iff_context_node [.NODE "Identifier", .CONTEXT_NODE "Module", .NODE "Type"] "Module"

/-- C2: for a line `STANDARD_TYPE(KIND, MANGLING, TYPENAME)` of the standard-type
table whose first `MANGLING` character `c` is not the first `MANGLING` character of
an earlier line, `createStandardSubstitution` at `c` returns the `Type` node with the
single child of kind `KIND`, whose children are the `Module` node with text
`stdlibName` and then the `Identifier` node with text `TYPENAME`. -/
theorem createStandardSubstitution_returns_canonical (stdlibName : String)
    (earlier later : List StandardType) (e : StandardType) (c : Char)
    (hc : e.MANGLING.data.head? = some c)
    (hfirst : ∀ d ∈ earlier, d.MANGLING.data.head? ≠ some c) :
    createStandardSubstitution stdlibName (earlier ++ e :: later) c =
      .ok (Node.mk "Type"
        [Node.mk e.KIND
          [Node.mk "Module" [] (.Text stdlibName),
           Node.mk "Identifier" [] (.Text e.TYPENAME)] .None] .None) :=
  createStandardSubstitution_first stdlibName earlier later e c hc hfirst

/-- C2 at a concrete table: code `b` of the second line yields the node of `Bool`. -/
theorem createStandardSubstitution_returns_canonical_witness :
    createStandardSubstitution "Swift"
        ([⟨"Structure", "a", "Array"⟩] ++ ⟨"Structure", "b", "Bool"⟩ ::
          [⟨"Protocol", "b", "Shadowed"⟩]) 'b' =
      .ok (Node.mk "Type"
        [Node.mk "Structure"
          [Node.mk "Module" [] (.Text "Swift"),
           Node.mk "Identifier" [] (.Text "Bool")] .None] .None) :=
  createStandardSubstitution_returns_canonical "Swift" [⟨"Structure", "a", "Array"⟩]
    [⟨"Protocol", "b", "Shadowed"⟩] ⟨"Structure", "b", "Bool"⟩ 'b'
    (by decide) (by decide)

/-- C3: `createStandardSubstitution` throws `failure` exactly for the characters that
are the first `MANGLING` character of no line of the standard-type table; for a
character that is the code of some line it returns a node. -/
theorem createStandardSubstitution_fails_iff_unknown (stdlibName : String)
    (defs : List StandardType) (c : Char) :
    (createStandardSubstitution stdlibName defs c = .error .failure ↔
      ∀ d ∈ defs, d.MANGLING.data.head? ≠ some c) ∧
    ((∃ d ∈ defs, d.MANGLING.data.head? = some c) →
      ∃ node, createStandardSubstitution stdlibName defs c = .ok node) := by
  refine ⟨createStandardSubstitution_error_iff stdlibName defs c, fun hex => ?_⟩
  cases h : createStandardSubstitution stdlibName defs c with
  | ok node => exact ⟨node, rfl⟩
  | error err =>
    cases err
    obtain ⟨d, hd, hdc⟩ := hex
    exact absurd hdc ((createStandardSubstitution_error_iff stdlibName defs c).1 h d hd)

/-- C3 at a concrete table: `z` is no code of it and fails, `a` is one and does not. -/
theorem createStandardSubstitution_fails_iff_unknown_witness :
    createStandardSubstitution "Swift"
        [⟨"Structure", "a", "Array"⟩, ⟨"Structure", "b", "Bool"⟩] 'z' =
      .error .failure ∧
    ∃ node, createStandardSubstitution "Swift"
        [⟨"Structure", "a", "Array"⟩, ⟨"Structure", "b", "Bool"⟩] 'a' = .ok node :=
  ⟨(createStandardSubstitution_fails_iff_unknown "Swift"
      [⟨"Structure", "a", "Array"⟩, ⟨"Structure", "b", "Bool"⟩] 'z').1.2
      (by decide),
   (createStandardSubstitution_fails_iff_unknown "Swift"
      [⟨"Structure", "a", "Array"⟩, ⟨"Structure", "b", "Bool"⟩] 'a').2
      ⟨⟨"Structure", "a", "Array"⟩, by decide, by decide⟩⟩

/-- C4: for a line `STANDARD_TYPE(KIND, MANGLING, TYPENAME)` whose `TYPENAME` is not
the `TYPENAME` of an earlier line, `getStandardTypeSubst(typeName: TYPENAME)` returns
the code `MANGLING` of that line. -/
theorem getStandardTypeSubst_returns_mangling (earlier later : List StandardType)
    (e : StandardType) (hfirst : ∀ d ∈ earlier, d.TYPENAME ≠ e.TYPENAME) :
    getStandardTypeSubst (earlier ++ e :: later) e.TYPENAME =
      .returned (some e.MANGLING) :=
  getStandardTypeSubst_first earlier later e hfirst

/-- C4 at a concrete table: `Bool` is looked up to `b`, not to the later `B`. -/
theorem getStandardTypeSubst_returns_mangling_witness :
    getStandardTypeSubst
        ([⟨"Structure", "a", "Array"⟩] ++ ⟨"Structure", "b", "Bool"⟩ ::
          [⟨"Structure", "B", "Bool"⟩]) "Bool" = .returned (some "b") :=
  getStandardTypeSubst_returns_mangling [⟨"Structure", "a", "Array"⟩]
    [⟨"Structure", "B", "Bool"⟩] ⟨"Structure", "b", "Bool"⟩ (by decide)

/-- C5 as stated fails: on a type name that matches no line of the table,
`getStandardTypeSubst` does not return `nil`; the call ends in `fatalError`. -/
theorem getStandardTypeSubst_unknown_is_not_none :
    (∀ d ∈ ([⟨"Structure", "a", "Array"⟩] : List StandardType), d.TYPENAME ≠ "Foo") ∧
    getStandardTypeSubst [⟨"Structure", "a", "Array"⟩] "Foo" ≠ .returned none ∧
    getStandardTypeSubst [⟨"Structure", "a", "Array"⟩] "Foo" =
      .fatalError "Unknown typename" := by
  refine ⟨by decide, by decide, by decide⟩

/-- C5, amended: for every type name that matches no line of the standard-type table
`getStandardTypeSubst` ends in `fatalError("Unknown typename")` and returns nothing;
whenever it returns, the name is the `TYPENAME` of a line of the table and the value
returned is the code `MANGLING` of such a line, never `nil`. -/
theorem getStandardTypeSubst_unknown_is_fatal (defs : List StandardType)
    (typeName : String) :
    ((∀ d ∈ defs, d.TYPENAME ≠ typeName) →
      getStandardTypeSubst defs typeName = .fatalError "Unknown typename") ∧
    (∀ v, getStandardTypeSubst defs typeName = .returned v →
      ∃ d ∈ defs, d.TYPENAME = typeName ∧ v = some d.MANGLING) := by
  refine ⟨fun hnone => ?_, fun v hv => getStandardTypeSubst_returned defs typeName v hv⟩
  have h := getStandardTypeSubst_skip defs [] typeName hnone
  simpa [getStandardTypeSubst] using h

/-- C5, amended, at a concrete table: `Foo` is unknown and ends in `fatalError`. -/
theorem getStandardTypeSubst_unknown_is_fatal_witness :
    getStandardTypeSubst [⟨"Structure", "a", "Array"⟩, ⟨"Structure", "b", "Bool"⟩] "Foo" =
      .fatalError "Unknown typename" :=
  (getStandardTypeSubst_unknown_is_fatal
    [⟨"Structure", "a", "Array"⟩, ⟨"Structure", "b", "Bool"⟩] "Foo").1 (by decide)

/-- C6: when the lines of the standard-type table have pairwise distinct code
characters and pairwise distinct type names, then for every line
`STANDARD_TYPE(KIND, MANGLING, TYPENAME)` with code `c`: `getStandardTypeSubst` of
`TYPENAME` returns `c`, `createStandardSubstitution` of that code succeeds with the
`Type` node whose inner node has kind `KIND` and whose `Identifier` child carries
`TYPENAME`; and conversely `getStandardTypeSubst` of the `Identifier` text of
`createStandardSubstitution(c)` returns `c`. -/
theorem standard_substitution_bidirectional (stdlibName : String)
    (defs : List StandardType)
    (hcodes : defs.Pairwise (fun a b => a.code ≠ b.code))
    (hnames : defs.Pairwise (fun a b => a.TYPENAME ≠ b.TYPENAME))
    (e : StandardType) (he : e ∈ defs) (c : Char) (hc : e.MANGLING = String.singleton c) :
    getStandardTypeSubst defs e.TYPENAME = .returned (some (String.singleton c)) ∧
    createStandardSubstitution stdlibName defs c =
      .ok (Node.mk "Type"
        [Node.mk e.KIND
          [Node.mk "Module" [] (.Text stdlibName),
           Node.mk "Identifier" [] (.Text e.TYPENAME)] .None] .None) ∧
    (∃ node name, createStandardSubstitution stdlibName defs c = .ok node ∧
      standardTypeName node = some name ∧
      getStandardTypeSubst defs name = .returned (some (String.singleton c))) := by
  obtain ⟨earlier, later, rfl⟩ := List.append_of_mem he
  have hcode : e.code = some c := by simp [StandardType.code, hc, String.singleton]
  have hskipc : ∀ d ∈ earlier, d.code ≠ some c := by
    intro d hd
    have := (List.pairwise_append.1 hcodes).2.2 d hd e (List.mem_cons_self e later)
    rwa [hcode] at this
  have hskipn : ∀ d ∈ earlier, d.TYPENAME ≠ e.TYPENAME := fun d hd =>
    (List.pairwise_append.1 hnames).2.2 d hd e (List.mem_cons_self e later)
  have hget := getStandardTypeSubst_first earlier later e hskipn
  rw [hc] at hget
  have hcreate := createStandardSubstitution_first stdlibName earlier later e c hcode hskipc
  exact ⟨hget, hcreate, _, e.TYPENAME, hcreate, rfl, hget⟩

/-- C6 at a concrete table: `Bool` maps to `b` and `b` back to the node of `Bool`. -/
theorem standard_substitution_bidirectional_witness :
    getStandardTypeSubst [⟨"Structure", "a", "Array"⟩, ⟨"Structure", "b", "Bool"⟩] "Bool" =
      .returned (some "b") ∧
    createStandardSubstitution "Swift"
        [⟨"Structure", "a", "Array"⟩, ⟨"Structure", "b", "Bool"⟩] 'b' =
      .ok (Node.mk "Type"
        [Node.mk "Structure"
          [Node.mk "Module" [] (.Text "Swift"),
           Node.mk "Identifier" [] (.Text "Bool")] .None] .None) :=
  have h := standard_substitution_bidirectional "Swift"
    [⟨"Structure", "a", "Array"⟩, ⟨"Structure", "b", "Bool"⟩]
    (by decide) (by decide) ⟨"Structure", "b", "Bool"⟩ (by decide) 'b' (by decide)
  ⟨h.1, h.2.1⟩

/-- C7: in both templates the members of `RequiredValueWitnesses` are, one per slot
and in catalogue order, exactly the required-flagged slots of the value-witness
catalogue, and the members of `AllValueWitnesses` are, one per slot and in catalogue
order, exactly all its slots; each member is named by the slot's lower-case
identifier. -/
theorem value_witness_views_follow_catalogue (catalogue : List ValueWitness) :
    (VwH.RequiredValueWitnesses catalogue =
        (catalogue.filter (fun w => w.required)).map
          (fun w => { type := "ValueWitness" ++ w.upperId, name := w.lowerId }) ∧
      VwH.AllValueWitnesses catalogue =
        catalogue.map (fun w => { type := "ValueWitness" ++ w.upperId, name := w.lowerId })) ∧
    (VwSwift.RequiredValueWitnesses catalogue =
        (catalogue.filter (fun w => w.required)).map VwSwift.member ∧
      VwSwift.AllValueWitnesses catalogue = catalogue.map VwSwift.member) ∧
    ((VwH.RequiredValueWitnesses catalogue).map Field.name =
        (catalogue.filter (fun w => w.required)).map ValueWitness.lowerId ∧
      (VwH.AllValueWitnesses catalogue).map Field.name =
        catalogue.map ValueWitness.lowerId ∧
      (VwSwift.RequiredValueWitnesses catalogue).map Field.name =
        (catalogue.filter (fun w => w.required)).map ValueWitness.lowerId ∧
      (VwSwift.AllValueWitnesses catalogue).map Field.name =
        catalogue.map ValueWitness.lowerId) := by
  have hname : ∀ w : ValueWitness, (VwSwift.member w).name = w.lowerId := by
    intro w
    cases hs : w.signature <;>
      simp [VwSwift.member, hs, VwSwift.FUNCTION_VALUE_WITNESS, VwSwift.DATA_VALUE_WITNESS]
  refine ⟨⟨rfl, rfl⟩, ⟨rfl, rfl⟩, ?_, ?_, ?_, ?_⟩
  · simp [VwH.RequiredValueWitnesses, includeValueWitnessDef, VwH.VALUE_WITNESS,
      Function.comp_def]
  · simp [VwH.AllValueWitnesses, includeValueWitnessDef, VwH.VALUE_WITNESS,
      Function.comp_def]
  · simp [VwSwift.RequiredValueWitnesses, includeValueWitnessDef, Function.comp_def, hname]
  · simp [VwSwift.AllValueWitnesses, includeValueWitnessDef, Function.comp_def, hname]

/-- C8 as stated fails: for a catalogue all of whose slots are required-flagged,
`AllValueWitnesses` has no member that `RequiredValueWitnesses` does not have; the
two member lists are equal, in both templates. -/
theorem all_has_no_extra_member_when_all_required :
    (VwH.RequiredValueWitnesses [⟨"size", "Size", .data "SIZE_TYPE", true⟩] =
        VwH.AllValueWitnesses [⟨"size", "Size", .data "SIZE_TYPE", true⟩] ∧
      ¬ ∃ f ∈ VwH.AllValueWitnesses [⟨"size", "Size", .data "SIZE_TYPE", true⟩],
          f.name ∉ (VwH.RequiredValueWitnesses
            [⟨"size", "Size", .data "SIZE_TYPE", true⟩]).map Field.name) ∧
    (VwSwift.RequiredValueWitnesses [⟨"size", "Size", .data "SIZE_TYPE", true⟩] =
        VwSwift.AllValueWitnesses [⟨"size", "Size", .data "SIZE_TYPE", true⟩] ∧
      ¬ ∃ f ∈ VwSwift.AllValueWitnesses [⟨"size", "Size", .data "SIZE_TYPE", true⟩],
          f.name ∉ (VwSwift.RequiredValueWitnesses
            [⟨"size", "Size", .data "SIZE_TYPE", true⟩]).map Field.name) := by
  decide

/-- C8, amended: for every value-witness catalogue, in both templates, the members
of `RequiredValueWitnesses` form a sublist of the members of `AllValueWitnesses`,
so each is a member of `AllValueWitnesses` with the same name and type and in the
same relative order.  When the slot names are pairwise distinct, every slot that is
not required-flagged gives `AllValueWitnesses` a member name that
`RequiredValueWitnesses` does not have; when every slot is required-flagged the two
member lists are equal. -/
theorem required_is_projection_of_all (catalogue : List ValueWitness) :
    ((VwH.RequiredValueWitnesses catalogue).Sublist (VwH.AllValueWitnesses catalogue) ∧
      (VwSwift.RequiredValueWitnesses catalogue).Sublist
        (VwSwift.AllValueWitnesses catalogue)) ∧
    ((catalogue.map ValueWitness.lowerId).Nodup →
      ∀ w ∈ catalogue, w.required = false →
        (w.lowerId ∈ (VwH.AllValueWitnesses catalogue).map Field.name ∧
          w.lowerId ∉ (VwH.RequiredValueWitnesses catalogue).map Field.name) ∧
        (w.lowerId ∈ (VwSwift.AllValueWitnesses catalogue).map Field.name ∧
          w.lowerId ∉ (VwSwift.RequiredValueWitnesses catalogue).map Field.name)) ∧
    ((∀ w ∈ catalogue, w.required = true) →
      VwH.RequiredValueWitnesses catalogue = VwH.AllValueWitnesses catalogue ∧
      VwSwift.RequiredValueWitnesses catalogue = VwSwift.AllValueWitnesses catalogue) := by
  have hname : ∀ w : ValueWitness, (VwSwift.member w).name = w.lowerId := by
    intro w
    cases hs : w.signature <;>
      simp [VwSwift.member, hs, VwSwift.FUNCTION_VALUE_WITNESS, VwSwift.DATA_VALUE_WITNESS]
  refine ⟨⟨?_, ?_⟩, ?_, ?_⟩
  · exact (includeValueWitnessDef_required_sublist catalogue).map _
  · exact (includeValueWitnessDef_required_sublist catalogue).map _
  · intro hnodup w hw hreq
    have hnot : ∀ x ∈ catalogue, x.required = true → x.lowerId ≠ w.lowerId := by
      intro x hx hxr hxw
      have hxeq : x = w := List.inj_on_of_nodup_map hnodup hx hw hxw
      rw [hxeq, hreq] at hxr
      exact Bool.false_ne_true hxr
    refine ⟨⟨?_, ?_⟩, ?_, ?_⟩
    · simp only [VwH.AllValueWitnesses, includeValueWitnessDef, List.mem_map]
      exact ⟨_, ⟨w, hw, rfl⟩, rfl⟩
    · simp only [VwH.RequiredValueWitnesses, includeValueWitnessDef, List.mem_map,
        List.mem_filter]
      rintro ⟨f, ⟨x, ⟨hx, hxr⟩, rfl⟩, hfw⟩
      exact hnot x hx hxr hfw
    · simp only [VwSwift.AllValueWitnesses, includeValueWitnessDef, List.mem_map]
      exact ⟨_, ⟨w, hw, rfl⟩, hname w⟩
    · simp only [VwSwift.RequiredValueWitnesses, includeValueWitnessDef, List.mem_map,
        List.mem_filter]
      rintro ⟨f, ⟨x, ⟨hx, hxr⟩, rfl⟩, hfw⟩
      exact hnot x hx hxr ((hname x).symm.trans hfw)
  · intro hall
    have hfilter : catalogue.filter (fun w => w.required) = catalogue :=
      List.filter_eq_self.2 hall
    simp [VwH.RequiredValueWitnesses, VwH.AllValueWitnesses,
      VwSwift.RequiredValueWitnesses, VwSwift.AllValueWitnesses, includeValueWitnessDef,
      hfilter]

/-- C8, amended, at a concrete catalogue with one required and one other slot:
`size` is a member of both views, `getEnumTag` only of `AllValueWitnesses`. -/
theorem required_is_projection_of_all_witness :
    (VwH.RequiredValueWitnesses
        [⟨"size", "Size", .data "SIZE_TYPE", true⟩,
         ⟨"getEnumTag", "GetEnumTag", .function "UINT_TYPE" "(IMMUTABLE_VALUE_TYPE)", false⟩]).Sublist
      (VwH.AllValueWitnesses
        [⟨"size", "Size", .data "SIZE_TYPE", true⟩,
         ⟨"getEnumTag", "GetEnumTag", .function "UINT_TYPE" "(IMMUTABLE_VALUE_TYPE)", false⟩]) ∧
    "getEnumTag" ∉ (VwH.RequiredValueWitnesses
        [⟨"size", "Size", .data "SIZE_TYPE", true⟩,
         ⟨"getEnumTag", "GetEnumTag", .function "UINT_TYPE" "(IMMUTABLE_VALUE_TYPE)", false⟩]).map
      Field.name :=
  have h := required_is_projection_of_all
    [⟨"size", "Size", .data "SIZE_TYPE", true⟩,
     ⟨"getEnumTag", "GetEnumTag", .function "UINT_TYPE" "(IMMUTABLE_VALUE_TYPE)", false⟩]
  ⟨h.1.1, (h.2.1 (by decide)
    ⟨"getEnumTag", "GetEnumTag", .function "UINT_TYPE" "(IMMUTABLE_VALUE_TYPE)", false⟩
    (by decide) rfl).1.2⟩

/-- C10 as stated fails: in a table with pairwise distinct `MANGLING` codes in which
two lines name the same kind, the Remangler selects the code of the first of them,
so the code selected for the kind of the second line is not that line's code. -/
theorem remangleValueWitnessCode_shadowed_line :
    ([⟨"al", "AllocateBuffer"⟩, ⟨"ca", "AllocateBuffer"⟩] :
        List ValueWitnessMangling).Pairwise (fun a b => a.MANGLING ≠ b.MANGLING) ∧
    (⟨"ca", "AllocateBuffer"⟩ : ValueWitnessMangling) ∈
      [⟨"al", "AllocateBuffer"⟩, ⟨"ca", "AllocateBuffer"⟩] ∧
    remangleValueWitnessCode [⟨"al", "AllocateBuffer"⟩, ⟨"ca", "AllocateBuffer"⟩]
      "AllocateBuffer" = some "al" ∧
    remangleValueWitnessCode [⟨"al", "AllocateBuffer"⟩, ⟨"ca", "AllocateBuffer"⟩]
      "AllocateBuffer" ≠ some "ca" := by
  decide

/-- C10, amended: when the lines of the value-witness mangling table have pairwise
distinct `MANGLING` codes, then for every line `VALUE_WITNESS(MANGLING, NAME)` whose
`NAME` is not the `NAME` of an earlier line the code the Remangler selects for kind
`NAME` is `MANGLING`, and for every line `decodeValueWitnessKind(code: MANGLING)`
returns `ValueWitnessKind.NAME.rawValue`; for every string that is the `MANGLING` of
no line `decodeValueWitnessKind` throws `failure`. -/
theorem value_witness_code_round_trip (rawValue : String → Int)
    (earlier later : List ValueWitnessMangling) (e : ValueWitnessMangling)
    (hcodes : (earlier ++ e :: later).Pairwise (fun a b => a.MANGLING ≠ b.MANGLING)) :
    ((∀ d ∈ earlier, d.NAME ≠ e.NAME) →
      remangleValueWitnessCode (earlier ++ e :: later) e.NAME = some e.MANGLING) ∧
    decodeValueWitnessKind rawValue (earlier ++ e :: later) e.MANGLING =
      .ok (rawValue e.NAME) ∧
    (∀ code : String, (∀ d ∈ earlier ++ e :: later, d.MANGLING ≠ code) →
      decodeValueWitnessKind rawValue (earlier ++ e :: later) code = .error .failure) := by
  refine ⟨fun hnames => ?_, ?_, fun code hcode => ?_⟩
  · rw [remangleValueWitnessCode_skip earlier (e :: later) e.NAME hnames]
    simp [remangleValueWitnessCode]
  · have hskip : ∀ d ∈ earlier, d.MANGLING ≠ e.MANGLING := fun d hd =>
      (List.pairwise_append.1 hcodes).2.2 d hd e (List.mem_cons_self e later)
    rw [decodeValueWitnessKind_skip rawValue earlier (e :: later) e.MANGLING hskip]
    simp [decodeValueWitnessKind]
  · have h := decodeValueWitnessKind_skip rawValue (earlier ++ e :: later) [] code hcode
    simpa [decodeValueWitnessKind] using h

/-- C10, amended, at a concrete table: kind `Destroy` remangles to `xx` and `xx`
decodes to the raw value of `Destroy`. -/
theorem value_witness_code_round_trip_witness :
    remangleValueWitnessCode
        ([⟨"al", "AllocateBuffer"⟩] ++ ⟨"xx", "Destroy"⟩ :: [⟨"Xx", "DestroyBuffer"⟩])
        "Destroy" = some "xx" ∧
    decodeValueWitnessKind (fun name => name.length)
        ([⟨"al", "AllocateBuffer"⟩] ++ ⟨"xx", "Destroy"⟩ :: [⟨"Xx", "DestroyBuffer"⟩])
        "xx" = .ok 7 ∧
    decodeValueWitnessKind (fun name => name.length)
        ([⟨"al", "AllocateBuffer"⟩] ++ ⟨"xx", "Destroy"⟩ :: [⟨"Xx", "DestroyBuffer"⟩])
        "zz" = .error .failure :=
  have h := value_witness_code_round_trip (fun name => name.length)
    [⟨"al", "AllocateBuffer"⟩] [⟨"Xx", "DestroyBuffer"⟩] ⟨"xx", "Destroy"⟩ (by decide)
  ⟨h.1 (by decide), h.2.1, h.2.2 "zz" (by decide)⟩

end SwiftMocks
